import Mathlib

/-!
Verification of the codecrafters shell (Python sources under `app/`):
`parser.py` (tokenizer), `command_factory.py` (resolver) and `commands.py`
(command execution).  The Python code is shallowly embedded below; each
definition carries a pointer to the function it translates.
-/

namespace Shell

/-- `str.isspace` for a single character, as used by
`QuoteProcessor.split_input` (parser.py line 16).  Python's `isspace`
accepts the ASCII whitespace characters, the file/group/record/unit
separators, NEL, NBSP and the Unicode space characters. -/
def pyIsSpace (c : Char) : Bool :=
  (0x09 ≤ c.toNat && c.toNat ≤ 0x0d) ||
  (0x1c ≤ c.toNat && c.toNat ≤ 0x20) ||
  c.toNat = 0x85 || c.toNat = 0xa0 || c.toNat = 0x1680 ||
  (0x2000 ≤ c.toNat && c.toNat ≤ 0x200a) ||
  c.toNat = 0x2028 || c.toNat = 0x2029 || c.toNat = 0x202f ||
  c.toNat = 0x205f || c.toNat = 0x3000

/-- Scanner mode of `QuoteProcessor.split_input` (parser.py): `normal`
corresponds to the top of the `while` loop, `inSingle` to the inner loop
at lines 27-35, `inDouble` to the inner loop at lines 38-55.  The
source consumes a backslash together with the character after it in one
step (`i += 2`); here the intermediate position after reading the
backslash is made explicit: `normalEsc` is "after a backslash at line
58", `inDoubleEsc` is "after a backslash inside double quotes at
line 41". -/
inductive TokState where
  | normal
  | inSingle
  | inDouble
  | normalEsc
  | inDoubleEsc
deriving DecidableEq

/-- The body of `QuoteProcessor.split_input` (parser.py lines 14-73),
one character at a time.  The source's inner `while` loops over a quoted
segment correspond to the `inSingle`/`inDouble` modes; the source's
whitespace-run skip (lines 16-22) is consumed one character per step,
with the flush guarded by `current_word != ""` exactly as in the source,
which produces the same output.  `cw` is `current_word`, `ws` is `words`.
A `ValueError` raised by the source is an `Except.error` carrying the
same message. -/
def tokLoop : TokState → List Char → String → List String →
    Except String (List String)
  | .normal, [], cw, ws =>
      .ok (if cw ≠ "" then ws ++ [cw] else ws)
  | .inSingle, [], _, _ => .error "Unclosed single quote in input"
  | .inDouble, [], _, _ => .error "Unclosed double quote in input"
  | .normalEsc, [], cw, ws =>
      .ok (if cw.push '\\' ≠ "" then ws ++ [cw.push '\\'] else ws)
  | .inDoubleEsc, [], _, _ => .error "Unclosed double quote in input"
  | .normal, c :: cs, cw, ws =>
      if pyIsSpace c then
        tokLoop .normal cs "" (if cw ≠ "" then ws ++ [cw] else ws)
      else if c = '\'' then tokLoop .inSingle cs cw ws
      else if c = '"' then tokLoop .inDouble cs cw ws
      else if c = '\\' then tokLoop .normalEsc cs cw ws
      else tokLoop .normal cs (cw.push c) ws
  | .normalEsc, d :: ds, cw, ws => tokLoop .normal ds (cw.push d) ws
  | .inSingle, c :: cs, cw, ws =>
      if c = '\'' then tokLoop .normal cs cw ws
      else tokLoop .inSingle cs (cw.push c) ws
  | .inDouble, c :: cs, cw, ws =>
      if c = '"' then tokLoop .normal cs cw ws
      else if c = '\\' then tokLoop .inDoubleEsc cs cw ws
      else tokLoop .inDouble cs (cw.push c) ws
  | .inDoubleEsc, d :: ds, cw, ws =>
      if d ∈ ['"', '\\', '$', '\n'] then tokLoop .inDouble ds (cw.push d) ws
      else tokLoop .inDouble ds ((cw.push '\\').push d) ws

/-- `QuoteProcessor.split_input` (parser.py lines 7-73). -/
def splitInput (userInput : String) : Except String (List String) :=
  tokLoop .normal userInput.data "" []

/-- Python `sep.join(xs)` (`str.join`), used at command_factory.py
lines 39 and 54. -/
def pyJoin (sep : String) : List String → String
  | [] => ""
  | [x] => x
  | x :: y :: xs => x ++ sep ++ pyJoin sep (y :: xs)

/-- Start code points of the runs of ten consecutive Unicode decimal
digits (category `Nd`; Unicode 14.0, the table shipped with
CPython 3.11).  Each run holds the digits zero to nine of one script,
in order, so a character at offset `k` into a run has digit value
`k`. -/
def ndRunStarts : List Nat :=
  [0x30, 0x660, 0x6f0, 0x7c0, 0x966, 0x9e6, 0xa66, 0xae6, 0xb66, 0xbe6,
   0xc66, 0xce6, 0xd66, 0xde6, 0xe50, 0xed0, 0xf20, 0x1040, 0x1090, 0x17e0,
   0x1810, 0x1946, 0x19d0, 0x1a80, 0x1a90, 0x1b50, 0x1bb0, 0x1c40, 0x1c50,
   0xa620, 0xa8d0, 0xa900, 0xa9d0, 0xa9f0, 0xaa50, 0xabf0, 0xff10, 0x104a0,
   0x10d30, 0x11066, 0x110f0, 0x11136, 0x111d0, 0x112f0, 0x11450, 0x114d0,
   0x11650, 0x116c0, 0x11730, 0x118e0, 0x11950, 0x11c50, 0x11d50, 0x11da0,
   0x16a60, 0x16ac0, 0x16b50, 0x1d7ce, 0x1d7d8, 0x1d7e2, 0x1d7ec, 0x1d7f6,
   0x1e140, 0x1e2f0, 0x1e950, 0x1fbf0]

/-- Value of a Unicode decimal digit (category `Nd`), exactly the
characters Python's `int` accepts as digits — ASCII `0`-`9` as well as,
for instance, Arabic-Indic or fullwidth digits; `none` for any other
character. -/
def digitVal (c : Char) : Option Nat :=
  (ndRunStarts.find? (fun s => s ≤ c.toNat && c.toNat ≤ s + 9)).map
    (fun s => c.toNat - s)

/-- Digit run of a Python base-10 integer literal after its first digit:
single underscores are allowed between digits only. -/
def digitsCore : List Char → Nat → Option Nat
  | [], acc => some acc
  | '_' :: c :: cs, acc =>
      match digitVal c with
      | some d => digitsCore cs (acc * 10 + d)
      | none => none
  | ['_'], _ => none
  | c :: cs, acc =>
      match digitVal c with
      | some d => digitsCore cs (acc * 10 + d)
      | none => none

/-- Nonempty digit run (first character must be a digit). -/
def parseDigits : List Char → Option Nat
  | [] => none
  | c :: cs =>
      match digitVal c with
      | some d => digitsCore cs d
      | none => none

/-- Strip leading and trailing whitespace as Python `int` does before
parsing. -/
def pyStrip (cs : List Char) : List Char :=
  ((cs.dropWhile pyIsSpace).reverse.dropWhile pyIsSpace).reverse

/-- Python `int(s)` in base 10, as called at command_factory.py line 49:
optional surrounding whitespace, optional sign, then a nonempty run of
Unicode decimal digits (`digitVal`) with optional single underscores
between digits.  `none` models a `ValueError`.  Python integers are
unbounded, so no out-of-range failure exists. -/
def pyInt (s : String) : Option Int :=
  match pyStrip s.data with
  | '+' :: rest => (parseDigits rest).map (fun n => (n : Int))
  | '-' :: rest => (parseDigits rest).map (fun n => -(n : Int))
  | cs => (parseDigits cs).map (fun n => (n : Int))

/-- Whether the first character of `s` is `c`. -/
def headIs (c : Char) (s : String) : Bool :=
  match s.data with
  | [] => false
  | d :: _ => d = c

/-- Whether the last character of `s` is `c`. -/
def lastIs (c : Char) (s : String) : Bool :=
  match s.data.reverse with
  | [] => false
  | d :: _ => d = c

/-- `os.path.join(a, b)` for POSIX paths, as used at commands.py
lines 57 and 77: an absolute `b` replaces `a`; otherwise `b` is
appended, inserting a `/` unless `a` is empty or already ends in one. -/
def osPathJoin (a b : String) : String :=
  if headIs '/' b then b
  else if a = "" ∨ lastIs '/' a then a ++ b
  else a ++ "/" ++ b

/-- Python `str.rstrip("/")`. -/
def rstripSlash (s : String) : String :=
  .mk (s.data.reverse.dropWhile (fun c => c = '/')).reverse

/-- `os.path.expanduser` for POSIX (used at commands.py line 38 and
command_factory.py line 59): a leading `~` up to the first `/` names a
user; `~` alone is the current user's home `home`, `~name` is looked up
in `users` (unknown user: path returned unchanged); the home directory
is stripped of trailing slashes and the remainder of the path is
appended; an empty result becomes `/`. -/
def pyExpanduser (home : String) (users : String → Option String)
    (path : String) : String :=
  if ¬ headIs '~' path then path
  else
    let i := 1 + (path.data.drop 1).findIdx (fun c => c = '/')
    let userhome? :=
      if i = 1 then some home else users (.mk ((path.data.drop 1).take (i - 1)))
    match userhome? with
    | none => path
    | some uh =>
        let r := rstripSlash uh ++ .mk (path.data.drop i)
        if r = "" then "/" else r

/-- The commands produced by `CommandFactory.get_command`
(command_factory.py; classes in commands.py).  `ext` is
`ExternalCommand`, `invalidCmd` is `InvalidCommand`, `redirect` is
`RedirectCommand`. -/
inductive Command where
  | helpCmd
  | exitCmd (exitCode : Int)
  | echoCmd (message : String)
  | pwdCmd
  | cdCmd (targetDirectory : String)
  | typeCmd (commandName : String)
  | invalidCmd (commandName : String)
  | ext (commandName : String) (arguments : List String)
  | redirect (inner : Command) (filename : String)
deriving DecidableEq

/-- Membership test of the redirection scan
(command_factory.py line 27): `token in (">", "1>")`. -/
def isRedirTok (t : String) : Bool := t == ">" || t == "1>"

/-- Index of the first token equal to `>` or `1>`
(command_factory.py lines 25-29). -/
def firstRedirIdx : List String → Option Nat
  | [] => none
  | t :: ts =>
      if isRedirTok t then some 0 else (firstRedirIdx ts).map (· + 1)

/-- Classification of what `os.chdir(target)` does
(commands.py lines 39-45): success, or one of the three exception types
the source catches, or any other `OSError` (for instance a symlink loop),
which the source does not catch. -/
inductive ChdirOutcome where
  | ok
  | noSuchFile
  | notDir
  | permission
  | otherOsError
deriving DecidableEq

/-- The external state the resolver and the commands read: the `HOME`
and `PATH` environment, the user database consulted by
`os.path.expanduser`, oracles for the file-system predicates
`os.path.exists` / `os.path.isfile` / `os.access(·, X_OK)`, the result
of `os.chdir`, the current directory, file contents, whether
`open(p, "w")` followed by the write succeeds, and the behaviour of
`subprocess.run`. -/
structure SysWorld where
  home : String
  users : String → Option String
  pathVar : String
  pathExists : String → Bool
  isFile : String → Bool
  isExec : String → Bool
  chdirRes : String → ChdirOutcome
  cwd : String
  files : String → Option String
  writable : String → Bool
  runProg : String → List String → String × String
  runOk : String → List String → Bool
  runErrText : String → List String → String

/-- Dispatch on the first token, command_factory.py lines 43-67 (the
path taken when no redirection operator was found).  The resolver reads
the environment only through `os.path.expanduser("~")` in the `cd`
branch, hence the `SysWorld` argument. -/
def dispatch (w : SysWorld) : List String → Command
  | [] => .invalidCmd ""
  | name :: rest =>
      if name = "help" then .helpCmd
      else if name = "exit" then
        match rest with
        | [] => .exitCmd 0
        | t :: _ =>
            match pyInt t with
            | some n => .exitCmd n
            | none => .invalidCmd "exit"
      else if name = "echo" then .echoCmd (pyJoin " " rest)
      else if name = "pwd" then .pwdCmd
      else if name = "cd" then
        .cdCmd (match rest with
                | [] => pyExpanduser w.home w.users "~"
                | t :: _ => t)
      else if name = "type" then
        match rest with
        | [] => .invalidCmd "type"
        | t :: _ => .typeCmd t
      else .ext name rest

/-- Token-level body of `CommandFactory.get_command`
(command_factory.py lines 21-67).  In the redirection branch the source
re-joins the tokens before the operator with single spaces and calls
`get_command` recursively on that string (lines 39-40); the recursion
is driven by `fuel`, which bounds the nesting depth.  Each recursive
call re-tokenizes a strictly shorter string (the joined prefix omits
the operator token and at least one separating character), so any fuel
of at least the original input length makes the `fuel = 0` fallback
unreachable. -/
def resolveTokensF (w : SysWorld) : Nat → List String → Command
  | fuel, tokens =>
      if tokens.isEmpty then .invalidCmd ""
      else
        match firstRedirIdx tokens with
        | some i =>
            if i = tokens.length - 1 then
              .invalidCmd "No file specified for redirection"
            else
              .redirect
                (match fuel with
                 | 0 => .invalidCmd ""
                 | fuel' + 1 =>
                     match splitInput (pyJoin " " (tokens.take i)) with
                     | .error e => .invalidCmd e
                     | .ok innerToks => resolveTokensF w fuel' innerToks)
                (tokens.getD (i + 1) "")
        | none => dispatch w tokens

/-- `CommandFactory.get_command` (command_factory.py lines 14-67) on a
raw input line: tokenize, turning a `ValueError` into
`InvalidCommand(str(e))`, then resolve the tokens.  The input length is
ample fuel for the redirection recursion. -/
def getCommand (w : SysWorld) (userInput : String) : Command :=
  match splitInput userInput with
  | .error e => .invalidCmd e
  | .ok tokens => resolveTokensF w userInput.length tokens

/-- Size measure of a token list: total character count plus the count
of tokens.  A tokenizer run can only shrink it (every output character
consumes an input character and every token boundary consumes a
separator), which bounds the redirection recursion depth. -/
def muLen (tokens : List String) : Nat :=
  (tokens.map String.length).sum + tokens.length

/-- The escape states hold one consumed-but-unwritten backslash; the
size bound on the tokenizer accounts for it. -/
def pendingEsc : TokState → Nat
  | .normalEsc => 1
  | .inDoubleEsc => 1
  | _ => 0

/-- Fuel that is ample for any recursion arising from `tokens`: the
joined string passed to the recursive call is never longer than the sum
of the token lengths plus the separating spaces
(`resolveTokensF_fuel_stable` below proves any fuel of at least
`muLen tokens` behaves identically). -/
def tokensFuel (tokens : List String) : Nat :=
  muLen tokens + 1

/-- `resolve` on a token sequence: the part of
`CommandFactory.get_command` after tokenization
(command_factory.py lines 21-67). -/
def resolveTokens (w : SysWorld) (tokens : List String) : Command :=
  resolveTokensF w (tokensFuel tokens) tokens

/-- What running one command produces: `ret r` is a normal return of
the Python `execute` method, where `r = none` models Python `None` (a
method falling off its end) and `r = some s` a returned string;
`terminate` models `sys.exit(code)`; `uncaught` models an exception
that no `except` clause of the program matches and which therefore
kills the shell.  Alongside the returned value, execution yields the
updated world and the list of lines printed to standard error. -/
inductive ExecResult where
  | ret (value : Option String) (w : SysWorld) (errLines : List String)
  | terminate (code : Int)
  | uncaught (description : String)

/-- The fixed builtin list of `TypeCommand.execute`
(commands.py line 52). -/
def pyBuiltins : List String := ["help", "exit", "echo", "type", "pwd", "cd"]

/-- Python `str.split(sep)` for a one-character separator, accumulator
form: splitting the empty string yields `[""]`, adjacent separators
yield empty fields. -/
def pySplitCore (sep : Char) (acc : String) : List Char → List String
  | [] => [acc]
  | c :: cs =>
      if c = sep then acc :: pySplitCore sep "" cs
      else pySplitCore sep (acc.push c) cs

/-- Python `s.split(sep)` for a one-character separator. -/
def pySplit (sep : Char) (s : String) : List String :=
  pySplitCore sep "" s.data

/-- `os.environ.get("PATH", "").split(os.pathsep)`
(commands.py lines 55 and 75); `os.pathsep` is `:` on POSIX. -/
def pathDirs (w : SysWorld) : List String := pySplit ':' w.pathVar

/-- The PATH loop of `TypeCommand.execute` (commands.py lines 56-60):
first directory whose joined path passes `os.path.exists`. -/
def typeSearch (w : SysWorld) (name : String) : List String → String
  | [] => name ++ ": not found"
  | d :: ds =>
      if w.pathExists (osPathJoin d name) then
        name ++ " is " ++ osPathJoin d name
      else typeSearch w name ds

/-- `TypeCommand.execute` (commands.py lines 51-60). -/
def typeExecute (w : SysWorld) (name : String) : String :=
  if name ∈ pyBuiltins then name ++ " is a shell builtin"
  else typeSearch w name (pathDirs w)

/-- The PATH loop of `ExternalCommand.execute`
(commands.py lines 76-78): first directory whose joined path is a
regular file with execute permission. -/
def extFind (w : SysWorld) (name : String) : List String → Option String
  | [] => none
  | d :: ds =>
      if w.isFile (osPathJoin d name) && w.isExec (osPathJoin d name) then
        some (osPathJoin d name)
      else extFind w name ds

/-- The warning printed by `RedirectCommand.execute` on a failed
open/write (commands.py line 109).  The Python message ends with the
exception text, which the model leaves out. -/
def writeWarning (filename : String) : String :=
  "Error writing to file " ++ filename

/-- Effect of `open(filename, "w")` followed by writing `text`
(commands.py lines 106-107): the file's previous contents are fully
replaced; every other file is untouched. -/
def writeFile (w : SysWorld) (filename text : String) : SysWorld :=
  { w with files := fun p => if p = filename then some text else w.files p }

/-- `Command.execute` for every command class (commands.py).
  * `HelpCommand` (lines 10-12), `EchoCommand` (21-26),
    `PwdCommand` (28-30), `TypeCommand` (47-60) and
    `InvalidCommand` (62-67) return their strings.
  * `ExitCommand` (14-19) calls `sys.exit`.
  * `CdCommand` (32-45) expands `~`, calls `os.chdir` and catches
    exactly `FileNotFoundError`, `NotADirectoryError` and
    `PermissionError`; any other `OSError` propagates uncaught.  On
    success the method returns `None`.
  * `ExternalCommand` (69-92) searches PATH for an executable regular
    file; on a hit it runs the process (`runOk` false models the broad
    `except` branch of lines 90-91), forwards a nonempty captured
    stderr, and returns the captured stdout.
  * `RedirectCommand` (94-111) runs the inner command, then opens the
    target for writing (truncating) and writes the returned text; a
    failure of open/write is only warned about.  If the inner command
    returned `None`, `f.write(None)` raises `TypeError` after `open`
    has already truncated the file, and the broad `except` turns this
    into the same warning.  It returns the empty string. -/
def execCommand (w : SysWorld) : Command → ExecResult
  | .helpCmd =>
      .ret (some ("Available commands: help, exit, echo [message], " ++
        "type [command], pwd, cd [directory]")) w []
  | .exitCmd code => .terminate code
  | .echoCmd message => .ret (some message) w []
  | .pwdCmd => .ret (some w.cwd) w []
  | .cdCmd targetDirectory =>
      let target := pyExpanduser w.home w.users targetDirectory
      match w.chdirRes target with
      | .ok => .ret none { w with cwd := target } []
      | .noSuchFile =>
          .ret (some ("cd: " ++ targetDirectory ++ ": No such file or directory")) w []
      | .notDir =>
          .ret (some ("cd: " ++ targetDirectory ++ ": Not a directory")) w []
      | .permission =>
          .ret (some ("cd: " ++ targetDirectory ++ ": Permission denied")) w []
      | .otherOsError => .uncaught "OSError"
  | .typeCmd name => .ret (some (typeExecute w name)) w []
  | .invalidCmd name => .ret (some (name ++ ": command not found")) w []
  | .ext name args =>
      match extFind w name (pathDirs w) with
      | none => .ret (some (name ++ ": command not found")) w []
      | some fullPath =>
          if w.runOk fullPath args then
            let r := w.runProg fullPath args
            .ret (some r.1) w (if r.2 ≠ "" then [r.2] else [])
          else
            .ret (some ("Error while executing " ++ name ++ ": " ++
              w.runErrText fullPath args)) w []
  | .redirect inner filename =>
      match execCommand w inner with
      | .terminate code => .terminate code
      | .uncaught d => .uncaught d
      | .ret value w₁ errs =>
          match value with
          | some text =>
              if w₁.writable filename then
                .ret (some "") (writeFile w₁ filename text) errs
              else
                .ret (some "") w₁ (errs ++ [writeWarning filename])
          | none =>
              if w₁.writable filename then
                .ret (some "") (writeFile w₁ filename "")
                  (errs ++ [writeWarning filename])
              else
                .ret (some "") w₁ (errs ++ [writeWarning filename])

/-- The quote state a line leaves the tokenizer in, following the spec's
state-machine description (§4.1: states `Normal`, `InSingleQuote`,
`InDoubleQuote`; a backslash in `Normal` or `InDoubleQuote` consumes the
following character; a trailing backslash leaves the state unchanged —
the two escape states record having just read such a backslash, and at
end of input they report the underlying `Normal`/`InDoubleQuote` state).
The word buffers are forgotten.  Used to state that reaching end of
input "while still inside a single-quoted segment" produces the
unclosed-quote failure. -/
def quoteState : TokState → List Char → TokState
  | .normal, [] => .normal
  | .inSingle, [] => .inSingle
  | .inDouble, [] => .inDouble
  | .normalEsc, [] => .normal
  | .inDoubleEsc, [] => .inDouble
  | .normal, c :: cs =>
      if c = '\'' then quoteState .inSingle cs
      else if c = '"' then quoteState .inDouble cs
      else if c = '\\' then quoteState .normalEsc cs
      else quoteState .normal cs
  | .normalEsc, _ :: ds => quoteState .normal ds
  | .inSingle, c :: cs =>
      if c = '\'' then quoteState .normal cs else quoteState .inSingle cs
  | .inDouble, c :: cs =>
      if c = '"' then quoteState .normal cs
      else if c = '\\' then quoteState .inDoubleEsc cs
      else quoteState .inDouble cs
  | .inDoubleEsc, _ :: ds => quoteState .inDouble ds

/-- A character the tokenizer passes through untouched in `Normal`
mode: not whitespace, not a quote, not a backslash.  A token made of
such characters survives the resolver's re-join/re-tokenize round trip
unchanged. -/
def plainChar (c : Char) : Bool :=
  !pyIsSpace c && !(c == '\'') && !(c == '"') && !(c == '\\')

/-- A token that survives the re-join/re-tokenize round trip: nonempty
and made of plain characters. -/
def plainTok (t : String) : Bool :=
  t ≠ "" && t.data.all plainChar

/-- A concrete world used to evaluate the resolver on concrete inputs
(the resolver reads the world only for the home directory). -/
def defaultWorld : SysWorld where
  home := "/home/user"
  users := fun _ => none
  pathVar := "/usr/bin"
  pathExists := fun _ => false
  isFile := fun _ => false
  isExec := fun _ => false
  chdirRes := fun _ => .ok
  cwd := "/home/user"
  files := fun _ => none
  writable := fun _ => true
  runProg := fun _ _ => ("", "")
  runOk := fun _ _ => true
  runErrText := fun _ _ => ""

/-- The standard-error lines of a normally returning execution. -/
def errLines : ExecResult → List String
  | .ret _ _ es => es
  | _ => []

/-- A world whose PATH has a single directory written with a trailing
slash, containing `ls`. -/
def slashWorld : SysWorld :=
  { defaultWorld with
      pathVar := "/usr/bin/"
      pathExists := fun p => p == "/usr/bin/ls" }

/-- A world whose PATH directory `/usr/bin` contains an entry `nano`
that exists but is not a regular executable file. -/
def nonExecWorld : SysWorld :=
  { defaultWorld with pathExists := fun p => p == "/usr/bin/nano" }

/-- A world where `os.chdir` fails with an `OSError` other than the
three kinds `CdCommand.execute` catches. -/
def osErrWorld : SysWorld :=
  { defaultWorld with chdirRes := fun _ => .otherOsError }

end Shell

-- Concrete sanity checks: the embedded functions compute exactly what
-- the Python functions do on the spec's own examples.
example : Shell.splitInput "echo 'hello   world'" =
    .ok ["echo", "hello   world"] := rfl
example : Shell.splitInput "echo \"a\\\"b\"" = .ok ["echo", "a\"b"] := rfl
example : Shell.splitInput "''" = .ok [] := rfl
example : Shell.splitInput "echo 'abc" =
    .error "Unclosed single quote in input" := rfl
example : Shell.splitInput "" = .ok [] := rfl
example : Shell.resolveTokens Shell.defaultWorld ["echo", "a'b", ">", "f"] =
    .redirect (.invalidCmd "Unclosed single quote in input") "f" := by decide
example : Shell.resolveTokens Shell.defaultWorld ["echo", "a'b"] =
    .echoCmd "a'b" := by decide
example : Shell.resolveTokens Shell.defaultWorld ["exit", ">", "f"] =
    .redirect (.exitCmd 0) "f" := by decide
example : Shell.resolveTokens Shell.defaultWorld ["echo", ">"] =
    .invalidCmd "No file specified for redirection" := by decide
example : Shell.getCommand Shell.defaultWorld "> out.txt" =
    .redirect (.invalidCmd "") "out.txt" := by decide
example : Shell.pyInt "3" = some 3 := by decide
example : Shell.pyInt "abc" = none := by decide
example : Shell.pyInt " -12 " = some (-12) := by decide
example : Shell.pyInt "1_0" = some 10 := by decide
example : Shell.pyInt "٣" = some 3 := by decide
example : Shell.pyInt "１２３" = some 123 := by decide
example : Shell.pyInt "²" = none := by decide
example : Shell.pyInt "1__0" = none := by decide
example : Shell.pyInt "+7" = some 7 := by decide
example : Shell.pyInt "" = none := by decide
example : Shell.quoteState .normal "echo 'abc".data = .inSingle := by decide
example : Shell.osPathJoin "/usr/bin" "ls" = "/usr/bin/ls" := by decide
example : Shell.osPathJoin "/usr/bin/" "ls" = "/usr/bin/ls" := by decide
example : Shell.osPathJoin "" "ls" = "ls" := by decide
example : Shell.pyExpanduser "/home/u" (fun _ => none) "~" = "/home/u" := by decide
example : Shell.pyExpanduser "/home/u" (fun _ => none) "~/x" = "/home/u/x" := by decide
example : Shell.pyExpanduser "/home/u/" (fun _ => none) "~" = "/home/u" := by decide
example : Shell.pyExpanduser "/home/u" (fun _ => none) "a/b" = "a/b" := by decide
example : Shell.pyExpanduser "/home/u" (fun _ => none) "~zzz/x" = "~zzz/x" := by decide

namespace Shell

/-- Unfolding of the tokenizer loop in `normal` mode on a nonempty
input. -/
theorem tokLoop_normal_cons (c : Char) (cs : List Char) (cw : String)
    (ws : List String) :
    tokLoop .normal (c :: cs) cw ws =
      if pyIsSpace c then
        tokLoop .normal cs "" (if cw ≠ "" then ws ++ [cw] else ws)
      else if c = '\'' then tokLoop .inSingle cs cw ws
      else if c = '"' then tokLoop .inDouble cs cw ws
      else if c = '\\' then tokLoop .normalEsc cs cw ws
      else tokLoop .normal cs (cw.push c) ws := rfl

/-- Unfolding of the tokenizer loop in `inSingle` mode on a nonempty
input. -/
theorem tokLoop_inSingle_cons (c : Char) (cs : List Char) (cw : String)
    (ws : List String) :
    tokLoop .inSingle (c :: cs) cw ws =
      if c = '\'' then tokLoop .normal cs cw ws
      else tokLoop .inSingle cs (cw.push c) ws := rfl

/-- Unfolding of the tokenizer loop in `inDouble` mode on a nonempty
input. -/
theorem tokLoop_inDouble_cons (c : Char) (cs : List Char) (cw : String)
    (ws : List String) :
    tokLoop .inDouble (c :: cs) cw ws =
      if c = '"' then tokLoop .normal cs cw ws
      else if c = '\\' then tokLoop .inDoubleEsc cs cw ws
      else tokLoop .inDouble cs (cw.push c) ws := rfl

/-- Unfolding of the tokenizer loop just after a backslash inside
double quotes. -/
theorem tokLoop_inDoubleEsc_cons (d : Char) (ds : List Char) (cw : String)
    (ws : List String) :
    tokLoop .inDoubleEsc (d :: ds) cw ws =
      if d ∈ ['"', '\\', '$', '\n'] then tokLoop .inDouble ds (cw.push d) ws
      else tokLoop .inDouble ds ((cw.push '\\').push d) ws := rfl

/-- Flushing the current buffer never appends an empty token. -/
theorem flush_ne_empty {cw : String} {ws : List String}
    (h : ∀ t ∈ ws, t ≠ "") :
    ∀ t ∈ (if cw ≠ "" then ws ++ [cw] else ws), t ≠ "" := by
  intro t ht
  split at ht
  case isTrue hcw =>
    rcases List.mem_append.mp ht with h1 | h1
    · exact h t h1
    · simp only [List.mem_singleton] at h1
      subst h1
      exact hcw
  case isFalse => exact h t ht

/-- Invariant of the tokenizer loop: if every accumulated word is
nonempty, then every word of a successful result is nonempty (the two
flush sites are guarded by `current_word != ""`). -/
theorem tokLoop_ok_ne_empty :
    ∀ (st : TokState) (cs : List Char) (cw : String) (ws : List String),
    ∀ toks : List String,
    (∀ t ∈ ws, t ≠ "") → tokLoop st cs cw ws = .ok toks → ∀ t ∈ toks, t ≠ "" := by
  intro st cs cw ws
  induction st, cs, cw, ws using tokLoop.induct <;> intro toks hws heq
  case case1 cw ws =>
    injection heq with h
    subst h
    exact flush_ne_empty hws
  case case2 x x' => exact Except.noConfusion heq
  case case3 x x' => exact Except.noConfusion heq
  case case4 cw ws =>
    injection heq with h
    subst h
    exact @flush_ne_empty (cw.push '\\') ws hws
  case case5 x x' => exact Except.noConfusion heq
  case case6 c cs cw ws hsp ih =>
    rw [tokLoop_normal_cons, if_pos hsp] at heq
    exact ih toks (flush_ne_empty hws) heq
  case case7 cs cw ws hsp ih => exact ih toks hws heq
  case case8 cs cw ws hsp hq ih => exact ih toks hws heq
  case case9 cs cw ws h1 h2 h3 ih => exact ih toks hws heq
  case case10 c cs cw ws h1 h2 h3 h4 ih =>
    rw [tokLoop_normal_cons, if_neg (by simp [h1]), if_neg h2, if_neg h3,
      if_neg h4] at heq
    exact ih toks hws heq
  case case11 d ds cw ws ih => exact ih toks hws heq
  case case12 cs cw ws ih => exact ih toks hws heq
  case case13 c cs cw ws hc ih =>
    rw [tokLoop_inSingle_cons, if_neg hc] at heq
    exact ih toks hws heq
  case case14 cs cw ws ih => exact ih toks hws heq
  case case15 cs cw ws h1 ih => exact ih toks hws heq
  case case16 c cs cw ws h1 h2 ih =>
    rw [tokLoop_inDouble_cons, if_neg h1, if_neg h2] at heq
    exact ih toks hws heq
  case case17 d ds cw ws hd ih =>
    rw [tokLoop_inDoubleEsc_cons, if_pos hd] at heq
    exact ih toks hws heq
  case case18 d ds cw ws hd ih =>
    rw [tokLoop_inDoubleEsc_cons, if_neg hd] at heq
    exact ih toks hws heq

/-- C2 (amended): every token produced by `split_input` is a non-empty
string — with no exception: an explicit empty-quoted segment such as an
isolated `''` contributes nothing and produces no token at all. -/
theorem claim2_tokens_nonempty :
    ∀ (s : String) (toks : List String),
    splitInput s = .ok toks → ∀ t ∈ toks, t ≠ "" := by
  intro s toks h
  exact tokLoop_ok_ne_empty .normal s.data "" [] toks (by simp) h

/-- Witness for C2: the hypotheses are satisfiable at a concrete
input. -/
theorem claim2_witness : ("hello" : String) ≠ "" :=
  claim2_tokens_nonempty "echo hello" ["echo", "hello"] rfl "hello" (by simp)

/-- Counterexample for C2 as stated: the canonical isolated
empty-quoted segment `''` produces the empty token list, not a list
containing an empty token. -/
theorem claim2_counterexample :
    splitInput "''" = .ok [] ∧ splitInput "''" ≠ .ok [""] := by
  refine ⟨rfl, fun h => ?_⟩
  have h2 : Except.ok ([] : List String) =
      (Except.ok [""] : Except String (List String)) :=
    (rfl : splitInput "''" = .ok []).symm.trans h
  injection h2 with h3
  simp at h3

/-- Unfolding of the spec-side quote tracker in `normal` mode. -/
theorem quoteState_normal_cons (c : Char) (cs : List Char) :
    quoteState .normal (c :: cs) =
      if c = '\'' then quoteState .inSingle cs
      else if c = '"' then quoteState .inDouble cs
      else if c = '\\' then quoteState .normalEsc cs
      else quoteState .normal cs := rfl

/-- Unfolding of the spec-side quote tracker in `inSingle` mode. -/
theorem quoteState_inSingle_cons (c : Char) (cs : List Char) :
    quoteState .inSingle (c :: cs) =
      if c = '\'' then quoteState .normal cs
      else quoteState .inSingle cs := rfl

/-- Unfolding of the spec-side quote tracker in `inDouble` mode. -/
theorem quoteState_inDouble_cons (c : Char) (cs : List Char) :
    quoteState .inDouble (c :: cs) =
      if c = '"' then quoteState .normal cs
      else if c = '\\' then quoteState .inDoubleEsc cs
      else quoteState .inDouble cs := rfl

/-- A whitespace character is not a quote or a backslash. -/
theorem pyIsSpace_not_special {c : Char} (h : pyIsSpace c = true) :
    ¬c = '\'' ∧ ¬c = '"' ∧ ¬c = '\\' := by
  refine ⟨fun e => ?_, fun e => ?_, fun e => ?_⟩ <;>
    (subst e; exact absurd h (by decide))

/-- Ending the scan inside a single-quoted segment makes the tokenizer
fail with the unclosed-single-quote error, whatever has been
accumulated so far. -/
theorem tokLoop_unclosed_single :
    ∀ (st : TokState) (cs : List Char) (cw : String) (ws : List String),
    quoteState st cs = .inSingle →
    tokLoop st cs cw ws = .error "Unclosed single quote in input" := by
  intro st cs cw ws
  induction st, cs, cw, ws using tokLoop.induct <;> intro h
  case case1 cw ws => exact TokState.noConfusion h
  case case2 x x' => rfl
  case case3 x x' => exact TokState.noConfusion h
  case case4 cw ws => exact TokState.noConfusion h
  case case5 x x' => exact TokState.noConfusion h
  case case6 c cs cw ws hsp ih =>
    obtain ⟨h2, h3, h4⟩ := pyIsSpace_not_special hsp
    rw [quoteState_normal_cons, if_neg h2, if_neg h3, if_neg h4] at h
    rw [tokLoop_normal_cons, if_pos hsp]
    exact ih h
  case case7 cs cw ws hsp ih => exact ih h
  case case8 cs cw ws hsp hq ih => exact ih h
  case case9 cs cw ws h1 h2 h3 ih => exact ih h
  case case10 c cs cw ws h1 h2 h3 h4 ih =>
    rw [quoteState_normal_cons, if_neg h2, if_neg h3, if_neg h4] at h
    rw [tokLoop_normal_cons, if_neg (by simp [h1]), if_neg h2, if_neg h3,
      if_neg h4]
    exact ih h
  case case11 d ds cw ws ih => exact ih h
  case case12 cs cw ws ih => exact ih h
  case case13 c cs cw ws hc ih =>
    rw [quoteState_inSingle_cons, if_neg hc] at h
    rw [tokLoop_inSingle_cons, if_neg hc]
    exact ih h
  case case14 cs cw ws ih => exact ih h
  case case15 cs cw ws h1 ih => exact ih h
  case case16 c cs cw ws h1 h2 ih =>
    rw [quoteState_inDouble_cons, if_neg h1, if_neg h2] at h
    rw [tokLoop_inDouble_cons, if_neg h1, if_neg h2]
    exact ih h
  case case17 d ds cw ws hd ih =>
    rw [tokLoop_inDoubleEsc_cons, if_pos hd]
    exact ih h
  case case18 d ds cw ws hd ih =>
    rw [tokLoop_inDoubleEsc_cons, if_neg hd]
    exact ih h

/-- C7: an input line that reaches end of input still inside a
single-quoted segment makes the tokenizer fail with the
unclosed-single-quote parse error; `get_command` converts this failure
into `InvalidCommand("Unclosed single quote in input")`, which executes
to a normal `Output` (the uniform `<reason>: command not found`
rendering) instead of aborting the loop. -/
theorem claim7_unclosed_single_invalid :
    ∀ (s : String) (w : SysWorld),
    quoteState .normal s.data = .inSingle →
    splitInput s = .error "Unclosed single quote in input" ∧
    getCommand w s = .invalidCmd "Unclosed single quote in input" ∧
    execCommand w (.invalidCmd "Unclosed single quote in input") =
      .ret (some "Unclosed single quote in input: command not found") w [] := by
  intro s w h
  have h1 : splitInput s = .error "Unclosed single quote in input" :=
    tokLoop_unclosed_single .normal s.data "" [] h
  refine ⟨h1, ?_, ?_⟩
  · rw [getCommand, h1]
  · rfl

/-- Witness for C7 at the spec's own example `echo 'abc`. -/
theorem claim7_witness :
    splitInput "echo 'abc" = .error "Unclosed single quote in input" ∧
    getCommand defaultWorld "echo 'abc" =
      .invalidCmd "Unclosed single quote in input" ∧
    execCommand defaultWorld (.invalidCmd "Unclosed single quote in input") =
      .ret (some "Unclosed single quote in input: command not found")
        defaultWorld [] :=
  claim7_unclosed_single_invalid "echo 'abc" defaultWorld (by decide)

/-- C6: inside a double-quoted segment a backslash followed by one of
`"`, `\`, `$`, newline contributes that character alone, while a
backslash followed by any other character contributes both characters;
in particular the spec's example input tokenizes as stated. -/
theorem claim6_double_quote_escapes :
    (∀ (c : Char) (cs : List Char) (cw : String) (ws : List String),
      tokLoop .inDouble ('\\' :: c :: cs) cw ws =
        if c ∈ ['"', '\\', '$', '\n'] then tokLoop .inDouble cs (cw.push c) ws
        else tokLoop .inDouble cs ((cw.push '\\').push c) ws) ∧
    splitInput "echo \"a\\\"b\"" = .ok ["echo", "a\"b"] :=
  ⟨fun _ _ _ _ => rfl, rfl⟩

/-- A token list with a redirection operator is not empty. -/
theorem firstRedirIdx_ne_nil {toks : List String} {i : Nat}
    (h : firstRedirIdx toks = some i) : toks ≠ [] := by
  rintro rfl
  simp [firstRedirIdx] at h

/-- The index found by the redirection scan is in range. -/
theorem firstRedirIdx_lt {toks : List String} {i : Nat}
    (h : firstRedirIdx toks = some i) : i < toks.length := by
  induction toks generalizing i with
  | nil => simp [firstRedirIdx] at h
  | cons t ts ih =>
    by_cases hr : isRedirTok t
    · simp [firstRedirIdx, hr] at h
      subst h
      simp
    · simp [firstRedirIdx, hr] at h
      obtain ⟨j, hj, rfl⟩ := h
      have := ih hj
      simp
      omega

/-- The tokens before the first redirection operator contain no
redirection operator. -/
theorem firstRedirIdx_take {toks : List String} {i : Nat}
    (h : firstRedirIdx toks = some i) :
    firstRedirIdx (toks.take i) = none := by
  induction toks generalizing i with
  | nil => simp [firstRedirIdx] at h
  | cons t ts ih =>
    by_cases hr : isRedirTok t
    · simp [firstRedirIdx, hr] at h
      subst h
      simp [firstRedirIdx]
    · simp [firstRedirIdx, hr] at h
      obtain ⟨j, hj, rfl⟩ := h
      simp [List.take_succ_cons, firstRedirIdx, hr, ih hj]

/-- C5 (amended): a token sequence whose first redirection operator is
the last token resolves to `Invalid` with reason exactly
`No file specified for redirection` (capital `N`), which executes to
`Output("No file specified for redirection: command not found")`. -/
theorem claim5_missing_target :
    ∀ (w : SysWorld) (toks : List String) (i : Nat),
    firstRedirIdx toks = some i → i = toks.length - 1 →
    resolveTokens w toks = .invalidCmd "No file specified for redirection" ∧
    execCommand w (.invalidCmd "No file specified for redirection") =
      .ret (some "No file specified for redirection: command not found")
        w [] := by
  intro w toks i h hi
  constructor
  · have hne : toks.isEmpty = false := by
      cases toks
      · simp [firstRedirIdx] at h
      · rfl
    rw [resolveTokens, resolveTokensF, if_neg (by simp [hne]), h]
    dsimp only
    rw [if_pos hi]
  · rfl

/-- Witness for C5 at `["echo", ">"]`. -/
theorem claim5_witness :
    resolveTokens defaultWorld ["echo", ">"] =
      .invalidCmd "No file specified for redirection" ∧
    execCommand defaultWorld (.invalidCmd "No file specified for redirection") =
      .ret (some "No file specified for redirection: command not found")
        defaultWorld [] :=
  claim5_missing_target defaultWorld ["echo", ">"] 1 rfl rfl

/-- Counterexample for C5 as stated: the reason string carries a
capital `N`, not the lowercase `no file specified for redirection` the
claim requires. -/
theorem claim5_counterexample :
    resolveTokens defaultWorld ["echo", ">"] =
      .invalidCmd "No file specified for redirection" ∧
    resolveTokens defaultWorld ["echo", ">"] ≠
      .invalidCmd "no file specified for redirection" := by
  exact ⟨by decide, by decide⟩

/-- The resolver on an empty token list, at any fuel. -/
theorem resolveTokensF_nil (w : SysWorld) (fuel : Nat) :
    resolveTokensF w fuel [] = .invalidCmd "" := by
  cases fuel <;> rfl

/-- Without a redirection operator the resolver is ordinary dispatch,
independently of the fuel. -/
theorem resolveTokensF_no_redir (w : SysWorld) (fuel : Nat)
    (toks : List String) (h : firstRedirIdx toks = none) :
    resolveTokensF w fuel toks = dispatch w toks := by
  cases toks with
  | nil => cases fuel <;> rfl
  | cons t ts =>
    rw [resolveTokensF, if_neg (by simp), h]

/-- C3 (amended): on a token sequence starting with `exit` and
containing no redirection operator, the resolver returns `Exit(n)` when
the second token parses as a Python base-10 integer, `Exit(0)` when
there is no second token, and `Invalid("exit")` when the second token
does not parse; Python integers are unbounded, so no out-of-range case
exists. -/
theorem claim3_exit_dispatch :
    ∀ (w : SysWorld) (rest : List String),
    firstRedirIdx ("exit" :: rest) = none →
    resolveTokens w ("exit" :: rest) =
      (match rest with
       | [] => Command.exitCmd 0
       | t :: _ =>
           match pyInt t with
           | some n => Command.exitCmd n
           | none => Command.invalidCmd "exit") := by
  intro w rest h
  rw [resolveTokens, resolveTokensF_no_redir _ _ _ h]
  cases rest with
  | nil => rfl
  | cons t ts => rfl

/-- Witness for C3: concrete exits, including a non-ASCII decimal
digit (Arabic-Indic three), which Python's `int` accepts. -/
theorem claim3_witness :
    resolveTokens defaultWorld ["exit", "3"] = .exitCmd 3 ∧
    resolveTokens defaultWorld ["exit"] = .exitCmd 0 ∧
    resolveTokens defaultWorld ["exit", "abc"] = .invalidCmd "exit" ∧
    resolveTokens defaultWorld ["exit", "٣"] = .exitCmd 3 :=
  ⟨claim3_exit_dispatch defaultWorld ["3"] (by decide),
   claim3_exit_dispatch defaultWorld [] (by decide),
   claim3_exit_dispatch defaultWorld ["abc"] (by decide),
   claim3_exit_dispatch defaultWorld ["٣"] (by decide)⟩

/-- Counterexample for C3 as stated: with second token `>`, which is
not an integer, the resolver does not return `Invalid("exit")` — the
redirection scan wins and produces a command that terminates the
process when run. -/
theorem claim3_counterexample :
    resolveTokens defaultWorld ["exit", ">", "f"] =
      .redirect (.exitCmd 0) "f" ∧
    Command.redirect (.exitCmd 0) "f" ≠ .invalidCmd "exit" ∧
    execCommand defaultWorld (.redirect (.exitCmd 0) "f") = .terminate 0 :=
  ⟨by decide, by decide, rfl⟩

/-- C4 (amended): running `Cd(target)` first expands a leading `~`,
then yields exactly one of: no text at all on success (Python `None`,
not the empty string), or the three diagnostic strings for the three
caught error kinds; it never terminates via `sys.exit`.  An `OSError`
outside the three caught kinds propagates as an uncaught exception. -/
theorem claim4_cd_contract :
    ∀ (w : SysWorld) (t : String),
    execCommand w (.cdCmd t) =
      (match w.chdirRes (pyExpanduser w.home w.users t) with
       | .ok => .ret none { w with cwd := pyExpanduser w.home w.users t } []
       | .noSuchFile =>
           .ret (some ("cd: " ++ t ++ ": No such file or directory")) w []
       | .notDir => .ret (some ("cd: " ++ t ++ ": Not a directory")) w []
       | .permission => .ret (some ("cd: " ++ t ++ ": Permission denied")) w []
       | .otherOsError => .uncaught "OSError") ∧
    ∀ code : Int, execCommand w (.cdCmd t) ≠ .terminate code := by
  intro w t
  have heq : execCommand w (.cdCmd t) =
      (match w.chdirRes (pyExpanduser w.home w.users t) with
       | .ok => .ret none { w with cwd := pyExpanduser w.home w.users t } []
       | .noSuchFile =>
           .ret (some ("cd: " ++ t ++ ": No such file or directory")) w []
       | .notDir => .ret (some ("cd: " ++ t ++ ": Not a directory")) w []
       | .permission => .ret (some ("cd: " ++ t ++ ": Permission denied")) w []
       | .otherOsError => .uncaught "OSError") := rfl
  refine ⟨heq, fun code h => ?_⟩
  rw [heq] at h
  cases hc : w.chdirRes (pyExpanduser w.home w.users t) <;> rw [hc] at h <;>
    exact ExecResult.noConfusion h

/-- Counterexample for C4 as stated: on success `CdCommand.execute`
returns `None`, which is not the empty text `Output("")`; the
difference is observable, since redirecting a successful `cd` makes
the write fail with a warning; and an uncaught `OSError` can escape
`Cd` entirely. -/
theorem claim4_counterexample :
    execCommand defaultWorld (.cdCmd "/tmp") =
      .ret none { defaultWorld with cwd := "/tmp" } [] ∧
    ExecResult.ret none { defaultWorld with cwd := "/tmp" } [] ≠
      .ret (some "") { defaultWorld with cwd := "/tmp" } [] ∧
    errLines (execCommand defaultWorld (.redirect (.cdCmd "/tmp") "out")) =
      [writeWarning "out"] ∧
    execCommand osErrWorld (.cdCmd "/tmp") = .uncaught "OSError" := by
  refine ⟨rfl, fun h => ?_, rfl, rfl⟩
  injection h with h1
  exact Option.noConfusion h1

/-- C9: redirecting an inner command that returns text `text` writes
`text` verbatim to the target (fully replacing its contents and
touching no other file) and returns the empty string, so nothing
reaches standard output; when the open/write fails, a warning line goes
to standard error and the command still returns the empty string. -/
theorem claim9_redirect_contract :
    ∀ (w : SysWorld) (inner : Command) (filename text : String)
      (w₁ : SysWorld) (errs : List String),
    execCommand w inner = .ret (some text) w₁ errs →
    (w₁.writable filename = true →
      execCommand w (.redirect inner filename) =
        .ret (some "") (writeFile w₁ filename text) errs ∧
      (writeFile w₁ filename text).files filename = some text ∧
      ∀ p, p ≠ filename → (writeFile w₁ filename text).files p = w₁.files p) ∧
    (w₁.writable filename = false →
      execCommand w (.redirect inner filename) =
        .ret (some "") w₁ (errs ++ [writeWarning filename])) := by
  intro w inner filename text w₁ errs hinner
  have hred : execCommand w (.redirect inner filename) =
      (match execCommand w inner with
       | .terminate code => .terminate code
       | .uncaught d => .uncaught d
       | .ret value w₂ errs₂ =>
           match value with
           | some t =>
               if w₂.writable filename then
                 .ret (some "") (writeFile w₂ filename t) errs₂
               else .ret (some "") w₂ (errs₂ ++ [writeWarning filename])
           | none =>
               if w₂.writable filename then
                 .ret (some "") (writeFile w₂ filename "")
                   (errs₂ ++ [writeWarning filename])
               else .ret (some "") w₂ (errs₂ ++ [writeWarning filename])) := by
    rw [execCommand]
  rw [hinner] at hred
  dsimp only at hred
  refine ⟨fun hw => ?_, fun hw => ?_⟩
  · rw [if_pos hw] at hred
    refine ⟨hred, by simp [writeFile], fun p hp => by simp [writeFile, hp]⟩
  · rw [if_neg (by simp [hw])] at hred
    exact hred

/-- Witness for C9: redirecting `echo hi` into `out`. -/
theorem claim9_witness :
    execCommand defaultWorld (.redirect (.echoCmd "hi") "out") =
      .ret (some "") (writeFile defaultWorld "out" "hi") [] ∧
    (writeFile defaultWorld "out" "hi").files "out" = some "hi" ∧
    ∀ p, p ≠ "out" →
      (writeFile defaultWorld "out" "hi").files p = defaultWorld.files p :=
  (claim9_redirect_contract defaultWorld (.echoCmd "hi") "out" "hi"
    defaultWorld [] rfl).1 rfl

/-- C10: a line that tokenizes to just a redirection operator and a
target resolves to `Redirect(Invalid(""), target)`; executing it (when
the target is writable) writes `: command not found` into the target
and returns the empty string. -/
theorem claim10_bare_redirect :
    ∀ (w : SysWorld) (line op target : String),
    splitInput line = .ok [op, target] → isRedirTok op = true →
    getCommand w line = .redirect (.invalidCmd "") target ∧
    (w.writable target = true →
      execCommand w (.redirect (.invalidCmd "") target) =
        .ret (some "") (writeFile w target ": command not found") [] ∧
      (writeFile w target ": command not found").files target =
        some ": command not found") := by
  intro w line op target hsplit hop
  constructor
  · have hne : line ≠ "" := by
      rintro rfl
      rw [show splitInput "" = .ok [] from rfl] at hsplit
      simp at hsplit
    have hlen : line.length = (line.length - 1) + 1 := by
      have hd : line.data ≠ [] := by
        intro hd
        exact hne (String.ext (hd.trans rfl))
      have : 0 < line.length := List.length_pos.mpr hd
      omega
    rw [getCommand, hsplit]
    dsimp only
    rw [hlen, resolveTokensF, if_neg (by simp)]
    have hfr : firstRedirIdx [op, target] = some 0 := by
      simp [firstRedirIdx, hop]
    rw [hfr]
    dsimp only
    rw [show splitInput (pyJoin " " (List.take 0 [op, target])) =
      Except.ok [] from rfl]
    dsimp only
    rw [resolveTokensF_nil]
    rfl
  · intro hw
    have hrun : execCommand w (.redirect (.invalidCmd "") target) =
        if w.writable target then
          .ret (some "") (writeFile w target ": command not found") []
        else .ret (some "") w ([] ++ [writeWarning target]) := rfl
    rw [hrun, if_pos hw]
    exact ⟨rfl, by simp [writeFile]⟩

/-- Witness for C10 at the line `> out.txt`. -/
theorem claim10_witness :
    getCommand defaultWorld "> out.txt" = .redirect (.invalidCmd "") "out.txt" ∧
    execCommand defaultWorld (.redirect (.invalidCmd "") "out.txt") =
      .ret (some "")
        (writeFile defaultWorld "out.txt" ": command not found") [] :=
  ⟨(claim10_bare_redirect defaultWorld "> out.txt" ">" "out.txt" rfl rfl).1,
   (((claim10_bare_redirect defaultWorld "> out.txt" ">" "out.txt" rfl rfl).2)
     rfl).1⟩

/-- The PATH loop of `TypeCommand.execute` returns on the first
directory whose joined path exists. -/
theorem typeSearch_eq_find (w : SysWorld) (name : String) :
    ∀ ds : List String,
    typeSearch w name ds =
      match ds.find? (fun d => w.pathExists (osPathJoin d name)) with
      | some d => name ++ " is " ++ osPathJoin d name
      | none => name ++ ": not found" := by
  intro ds
  induction ds with
  | nil => rfl
  | cons d ds ih =>
    by_cases h : w.pathExists (osPathJoin d name) = true
    · simp [typeSearch, h, List.find?_cons_of_pos]
    · simp only [Bool.not_eq_true] at h
      simp [typeSearch, h, List.find?_cons_of_neg, ih]

/-- The PATH loop of `ExternalCommand.execute` returns the first joined
path that is an executable regular file. -/
theorem extFind_eq_find (w : SysWorld) (name : String) :
    ∀ ds : List String,
    extFind w name ds =
      (ds.find? (fun d =>
        w.isFile (osPathJoin d name) && w.isExec (osPathJoin d name))).map
        (fun d => osPathJoin d name) := by
  intro ds
  induction ds with
  | nil => rfl
  | cons d ds ih =>
    by_cases h : (w.isFile (osPathJoin d name) && w.isExec (osPathJoin d name))
        = true
    · simp [extFind, h, List.find?_cons_of_pos]
    · simp only [Bool.not_eq_true] at h
      simp [extFind, h, List.find?_cons_of_neg, ih]

/-- C8 (amended): `Type(name)` answers `<name> is a shell builtin` for
the six builtins; otherwise it scans the PATH directories in order and
answers with the first directory whose entry passes the existence
check, printing the path `os.path.join(directory, name)` — which equals
`<directory>/<name>` whenever the directory is nonempty without a
trailing slash and the name is not absolute — or `<name>: not found`
when no directory matches.  The existence check contrasts with
`External`'s search, which requires a regular file with execute
permission, so an existing non-executable entry satisfies `Type` but
not `External`. -/
theorem claim8_type_search :
    (∀ (w : SysWorld) (name : String), name ∈ pyBuiltins →
      typeExecute w name = name ++ " is a shell builtin") ∧
    (∀ (w : SysWorld) (name : String), name ∉ pyBuiltins →
      typeExecute w name =
        match (pathDirs w).find? (fun d => w.pathExists (osPathJoin d name)) with
        | some d => name ++ " is " ++ osPathJoin d name
        | none => name ++ ": not found") ∧
    (∀ d name : String, d ≠ "" → lastIs '/' d = false →
      headIs '/' name = false → osPathJoin d name = d ++ "/" ++ name) ∧
    (∀ (w : SysWorld) (name : String),
      extFind w name (pathDirs w) =
        ((pathDirs w).find? (fun d =>
          w.isFile (osPathJoin d name) && w.isExec (osPathJoin d name))).map
          (fun d => osPathJoin d name)) ∧
    (∀ (w : SysWorld) (name d : String), name ∉ pyBuiltins →
      pathDirs w = [d] → w.pathExists (osPathJoin d name) = true →
      (w.isFile (osPathJoin d name) && w.isExec (osPathJoin d name)) = false →
      typeExecute w name = name ++ " is " ++ osPathJoin d name ∧
      extFind w name (pathDirs w) = none) := by
  refine ⟨?_, ?_, ?_, ?_, ?_⟩
  · intro w name h
    rw [typeExecute, if_pos h]
  · intro w name h
    rw [typeExecute, if_neg h, typeSearch_eq_find]
  · intro d name h1 h2 h3
    rw [osPathJoin, if_neg (by simp [h3]), if_neg (by simp [h1, h2])]
  · intro w name
    exact extFind_eq_find w name (pathDirs w)
  · intro w name d hnb hdirs hex hff
    constructor
    · rw [typeExecute, if_neg hnb, hdirs]
      simp [typeSearch, hex]
    · rw [hdirs]
      simp [extFind, hff]

/-- Witness for C8: a builtin, and an existing non-executable entry
that `type` reports but the external search rejects. -/
theorem claim8_witness :
    typeExecute defaultWorld "echo" = "echo is a shell builtin" ∧
    typeExecute nonExecWorld "nano" = "nano is /usr/bin/nano" ∧
    extFind nonExecWorld "nano" (pathDirs nonExecWorld) = none :=
  ⟨claim8_type_search.1 defaultWorld "echo" (by decide),
   (claim8_type_search.2.2.2.2 nonExecWorld "nano" "/usr/bin" (by decide)
     rfl rfl rfl).1,
   (claim8_type_search.2.2.2.2 nonExecWorld "nano" "/usr/bin" (by decide)
     rfl rfl rfl).2⟩

/-- Counterexample for C8 as stated: with the PATH directory written as
`/usr/bin/` (trailing slash), the reported path is `os.path.join`'s
result `/usr/bin/ls`, not the claim's literal `<directory>/<name>` form
`/usr/bin//ls`. -/
theorem claim8_counterexample :
    typeExecute slashWorld "ls" = "ls is /usr/bin/ls" ∧
    typeExecute slashWorld "ls" ≠ "ls is /usr/bin//ls" :=
  ⟨by decide, by decide⟩

/-- `String.append` acts as list append on the character data. -/
theorem data_append (a b : String) : (a ++ b).data = a.data ++ b.data := rfl

/-- `String.push` appends one character to the data. -/
theorem data_push (s : String) (c : Char) :
    (s.push c).data = s.data ++ [c] := rfl

/-- A plain character is not whitespace, a quote, or a backslash. -/
theorem plainChar_spec {c : Char} (h : plainChar c = true) :
    pyIsSpace c = false ∧ ¬c = '\'' ∧ ¬c = '"' ∧ ¬c = '\\' := by
  simp only [plainChar, Bool.and_eq_true, Bool.not_eq_true'] at h
  obtain ⟨⟨⟨h1, h2⟩, h3⟩, h4⟩ := h
  refine ⟨h1, ?_, ?_, ?_⟩ <;> simp_all

/-- A plain token is nonempty and made of plain characters. -/
theorem plainTok_spec {t : String} (h : plainTok t = true) :
    t ≠ "" ∧ ∀ c ∈ t.data, plainChar c = true := by
  simp only [plainTok, Bool.and_eq_true, decide_eq_true_eq,
    List.all_eq_true] at h
  exact h

/-- Scanning a word of plain characters just appends it to the current
buffer. -/
theorem tokLoop_plain_word :
    ∀ (wd : List Char), (∀ c ∈ wd, plainChar c = true) →
    ∀ (cs : List Char) (cw : String) (ws : List String),
    tokLoop .normal (wd ++ cs) cw ws =
      tokLoop .normal cs (String.mk (cw.data ++ wd)) ws := by
  intro wd
  induction wd with
  | nil =>
    intro _ cs cw ws
    cases cw with
    | mk l => simp
  | cons c wd ih =>
    intro hplain cs cw ws
    obtain ⟨h1, h2, h3, h4⟩ := plainChar_spec (hplain c (by simp))
    rw [List.cons_append, tokLoop_normal_cons, if_neg (by simp [h1]),
      if_neg h2, if_neg h3, if_neg h4,
      ih (fun c hc => hplain c (by simp [hc])) cs (cw.push c) ws]
    congr 1
    simp [String.push, List.append_assoc]

/-- Tokenizing the single-space join of nonempty plain tokens gives the
tokens back unchanged. -/
theorem tokLoop_join :
    ∀ (ts : List String), ts ≠ [] → (∀ t ∈ ts, plainTok t = true) →
    ∀ ws : List String,
    tokLoop .normal (pyJoin " " ts).data "" ws = .ok (ws ++ ts) := by
  intro ts
  induction ts with
  | nil => intro h; exact absurd rfl h
  | cons t ts ih =>
    intro _ hplain ws
    obtain ⟨htne, htpl⟩ := plainTok_spec (hplain t (by simp))
    cases ts with
    | nil =>
      rw [show pyJoin " " [t] = t from rfl]
      have hw := tokLoop_plain_word t.data htpl [] "" ws
      rw [List.append_nil] at hw
      rw [hw, show String.mk ("".data ++ t.data) = t from by cases t; rfl]
      rw [show tokLoop .normal [] t ws =
        .ok (if t ≠ "" then ws ++ [t] else ws) from rfl, if_pos htne]
    | cons t' ts' =>
      have hdata : (pyJoin " " (t :: t' :: ts')).data =
          t.data ++ (' ' :: (pyJoin " " (t' :: ts')).data) := by
        rw [show pyJoin " " (t :: t' :: ts') =
          t ++ " " ++ pyJoin " " (t' :: ts') from rfl]
        simp [data_append]
      rw [hdata, tokLoop_plain_word t.data htpl]
      rw [show String.mk ("".data ++ t.data) = t from by cases t; rfl]
      rw [tokLoop_normal_cons, if_pos (by decide : pyIsSpace ' ' = true),
        if_pos htne]
      rw [ih (by simp) (fun u hu => hplain u (by simp [hu])) (ws ++ [t])]
      simp

/-- Round trip of the resolver's redirection branch: re-joining plain
tokens with single spaces and re-tokenizing gives the tokens back. -/
theorem splitInput_pyJoin (ts : List String) (hne : ts ≠ [])
    (hplain : ∀ t ∈ ts, plainTok t = true) :
    splitInput (pyJoin " " ts) = .ok ts := by
  rw [splitInput]
  have := tokLoop_join ts hne hplain []
  simpa using this

/-- C1 (amended): with `i` the first index of a `>`/`1>` token and not
the last index, the resolver returns `Redirect(inner, tokens[i+1])`
where `inner` comes from re-joining `tokens[0:i]` with single spaces
and re-resolving that string from scratch; when every token before the
operator is nonempty and free of whitespace, quote and backslash
characters, the round trip is the identity and `inner` equals
`resolve(tokens[0:i])` exactly as the original claim states. -/
theorem claim1_redirect_split :
    ∀ (w : SysWorld) (toks : List String) (i : Nat),
    firstRedirIdx toks = some i → i + 1 < toks.length →
    (∀ t ∈ toks.take i, plainTok t = true) →
    resolveTokens w toks =
      .redirect (resolveTokens w (toks.take i)) (toks.getD (i + 1) "") := by
  intro w toks i h hi hplain
  have hne : toks.isEmpty = false := by
    cases toks
    · simp [firstRedirIdx] at h
    · rfl
  have hlt := firstRedirIdx_lt h
  have hii : ¬i = toks.length - 1 := by omega
  rw [resolveTokens, resolveTokensF, if_neg (by simp [hne]), h]
  dsimp only
  rw [if_neg hii,
    show tokensFuel toks = ((toks.map String.length).sum + toks.length) + 1
      from rfl]
  dsimp only
  rcases Nat.eq_zero_or_pos i with h0 | hpos
  · subst h0
    rw [show splitInput (pyJoin " " (List.take 0 toks)) = .ok [] from rfl]
    dsimp only
    rw [resolveTokensF_nil,
      show List.take 0 toks = ([] : List String) from rfl,
      resolveTokens, resolveTokensF_nil]
  · have htake : toks.take i ≠ [] := by
      have : (toks.take i).length = i := by
        rw [List.length_take]
        omega
      intro he
      rw [he] at this
      simp at this
      omega
    rw [splitInput_pyJoin (toks.take i) htake hplain]
    dsimp only
    rw [resolveTokensF_no_redir _ _ _ (firstRedirIdx_take h),
      show resolveTokens w (toks.take i) = dispatch w (toks.take i) from by
        rw [resolveTokens, resolveTokensF_no_redir _ _ _ (firstRedirIdx_take h)]]

/-- Witness for C1: plain tokens survive the round trip. -/
theorem claim1_witness :
    resolveTokens defaultWorld ["echo", "hi", ">", "out"] =
      .redirect (resolveTokens defaultWorld ["echo", "hi"]) "out" :=
  claim1_redirect_split defaultWorld ["echo", "hi", ">", "out"] 2
    (by decide) (by decide) (by decide)

/-- Counterexample for C1 as stated: a token containing a quote
character does not reach the inner command intact — the re-join and
re-tokenization turns `["echo", "a'b"]` into an unclosed-quote failure,
while resolving the tokens directly yields `Echo("a'b")`. -/
theorem claim1_counterexample :
    resolveTokens defaultWorld ["echo", "a'b", ">", "f"] =
      .redirect (.invalidCmd "Unclosed single quote in input") "f" ∧
    resolveTokens defaultWorld ["echo", "a'b"] = .echoCmd "a'b" ∧
    Command.redirect (.invalidCmd "Unclosed single quote in input") "f" ≠
      .redirect (.echoCmd "a'b") "f" :=
  ⟨by decide, by decide, by decide⟩

/-- The length of a string is the length of its character data. -/
theorem length_data (s : String) : s.length = s.data.length := rfl

/-- The empty string has length zero. -/
theorem length_empty : ("" : String).length = 0 := rfl

/-- Pushing a character grows a string by one. -/
theorem length_push (s : String) (c : Char) :
    (s.push c).length = s.length + 1 := by
  rw [length_data, length_data, data_push]
  simp

/-- String concatenation adds lengths. -/
theorem length_append (a b : String) :
    (a ++ b).length = a.length + b.length := by
  rw [length_data, length_data, length_data, data_append]
  simp

/-- The size measure is additive. -/
theorem muLen_append (a b : List String) :
    muLen (a ++ b) = muLen a + muLen b := by
  simp only [muLen, List.map_append, List.sum_append, List.length_append]
  omega

/-- The measure of a singleton token list. -/
theorem muLen_singleton (t : String) : muLen [t] = t.length + 1 := by
  simp [muLen]

/-- Flushing the buffer grows the measure by at most the buffer plus
one. -/
theorem muLen_flush (cw : String) (ws : List String) :
    muLen (if cw ≠ "" then ws ++ [cw] else ws) ≤
      muLen ws + cw.length + 1 := by
  split
  · rw [muLen_append, muLen_singleton]
    omega
  · omega

/-- Each flushed token costs at least one consumed input character (its
separator or the end of input), so a successful tokenizer run bounds
the output measure by the remaining input plus the pending buffer. -/
theorem tokLoop_muLen :
    ∀ (st : TokState) (cs : List Char) (cw : String) (ws : List String),
    ∀ toks : List String,
    tokLoop st cs cw ws = .ok toks →
    muLen toks ≤ muLen ws + cw.length + 1 + cs.length + pendingEsc st := by
  intro st cs cw ws
  induction st, cs, cw, ws using tokLoop.induct <;> intro toks heq <;>
    simp only [pendingEsc, List.length_cons, List.length_nil]
  case case1 cw ws =>
    injection heq with h
    subst h
    have := muLen_flush cw ws
    omega
  case case2 x x' => exact Except.noConfusion heq
  case case3 x x' => exact Except.noConfusion heq
  case case4 cw ws =>
    injection heq with h
    subst h
    have := muLen_flush (cw.push '\\') ws
    rw [length_push] at this
    omega
  case case5 x x' => exact Except.noConfusion heq
  case case6 c cs cw ws hsp ih =>
    rw [tokLoop_normal_cons, if_pos hsp] at heq
    have h1 := ih toks heq
    have h2 := muLen_flush cw ws
    simp only [pendingEsc, length_empty] at h1
    omega
  case case7 cs cw ws hsp ih =>
    have h1 := ih toks heq
    simp only [pendingEsc] at h1
    omega
  case case8 cs cw ws hsp hq ih =>
    have h1 := ih toks heq
    simp only [pendingEsc] at h1
    omega
  case case9 cs cw ws h1 h2 h3 ih =>
    have h4 := ih toks heq
    simp only [pendingEsc] at h4
    omega
  case case10 c cs cw ws h1 h2 h3 h4 ih =>
    rw [tokLoop_normal_cons, if_neg (by simp [h1]), if_neg h2, if_neg h3,
      if_neg h4] at heq
    have h5 := ih toks heq
    simp only [pendingEsc, length_push] at h5
    omega
  case case11 d ds cw ws ih =>
    have h1 := ih toks heq
    simp only [pendingEsc, length_push] at h1
    omega
  case case12 cs cw ws ih =>
    have h1 := ih toks heq
    simp only [pendingEsc] at h1
    omega
  case case13 c cs cw ws hc ih =>
    rw [tokLoop_inSingle_cons, if_neg hc] at heq
    have h1 := ih toks heq
    simp only [pendingEsc, length_push] at h1
    omega
  case case14 cs cw ws ih =>
    have h1 := ih toks heq
    simp only [pendingEsc] at h1
    omega
  case case15 cs cw ws h1 ih =>
    have h2 := ih toks heq
    simp only [pendingEsc] at h2
    omega
  case case16 c cs cw ws h1 h2 ih =>
    rw [tokLoop_inDouble_cons, if_neg h1, if_neg h2] at heq
    have h3 := ih toks heq
    simp only [pendingEsc, length_push] at h3
    omega
  case case17 d ds cw ws hd ih =>
    rw [tokLoop_inDoubleEsc_cons, if_pos hd] at heq
    have h1 := ih toks heq
    simp only [pendingEsc, length_push] at h1
    omega
  case case18 d ds cw ws hd ih =>
    rw [tokLoop_inDoubleEsc_cons, if_neg hd] at heq
    have h1 := ih toks heq
    simp only [pendingEsc, length_push] at h1
    omega

/-- Tokenizing can only shrink the measure: the output tokens measure at
most the input length plus one. -/
theorem splitInput_muLen {s : String} {toks : List String}
    (h : splitInput s = .ok toks) : muLen toks ≤ s.length + 1 := by
  have h1 := tokLoop_muLen .normal s.data "" [] toks h
  rw [show muLen ([] : List String) = 0 from rfl, length_empty,
    show pendingEsc .normal = 0 from rfl] at h1
  rw [length_data]
  omega

/-- Length of a single-space join of a nonempty token list. -/
theorem pyJoin_length :
    ∀ ts : List String, ts ≠ [] → (pyJoin " " ts).length + 1 = muLen ts := by
  intro ts
  induction ts with
  | nil => intro h; exact absurd rfl h
  | cons t ts ih =>
    intro _
    cases ts with
    | nil => simp [pyJoin, muLen]
    | cons y tl =>
      rw [show pyJoin " " (t :: y :: tl) = t ++ " " ++ pyJoin " " (y :: tl)
        from rfl]
      have h1 := ih (by simp)
      simp only [length_append, muLen, List.map_cons, List.sum_cons,
        List.length_cons] at h1 ⊢
      have : (" " : String).length = 1 := rfl
      omega

/-- The token at the first redirection index is a redirection
operator. -/
theorem firstRedirIdx_drop {toks : List String} {i : Nat}
    (h : firstRedirIdx toks = some i) :
    ∃ t rest, toks.drop i = t :: rest ∧ isRedirTok t = true := by
  induction toks generalizing i with
  | nil => simp [firstRedirIdx] at h
  | cons a ts ih =>
    by_cases hr : isRedirTok a
    · simp [firstRedirIdx, hr] at h
      subst h
      exact ⟨a, ts, rfl, hr⟩
    · simp [firstRedirIdx, hr] at h
      obtain ⟨j, hj, rfl⟩ := h
      simpa [List.drop_succ_cons] using ih hj

/-- A redirection operator token is a nonempty string. -/
theorem isRedirTok_length {t : String} (h : isRedirTok t = true) :
    1 ≤ t.length := by
  simp [isRedirTok] at h
  rcases h with h | h <;> subst h <;> decide

/-- The tokens obtained by re-tokenizing the joined prefix measure
strictly less than the original tokens: the dropped operator token
accounts for the difference. -/
theorem inner_muLen_bound {toks : List String} {i : Nat}
    {toks' : List String} (h : firstRedirIdx toks = some i)
    (hs : splitInput (pyJoin " " (toks.take i)) = .ok toks') :
    muLen toks' + 2 ≤ muLen toks := by
  obtain ⟨t, rest, hdrop, hrt⟩ := firstRedirIdx_drop h
  have hsplit : muLen toks = muLen (toks.take i) + muLen (toks.drop i) := by
    rw [← muLen_append, List.take_append_drop]
  have hdropμ : 2 ≤ muLen (toks.drop i) := by
    rw [hdrop]
    have := isRedirTok_length hrt
    simp only [muLen, List.map_cons, List.sum_cons, List.length_cons]
    omega
  rcases Nat.eq_zero_or_pos i with h0 | hpos
  · subst h0
    rw [show pyJoin " " (List.take 0 toks) = "" from rfl] at hs
    have : toks' = [] := by
      have h2 : Except.ok ([] : List String) =
          (Except.ok toks' : Except String (List String)) :=
        (rfl : splitInput "" = .ok []).symm.trans hs
      injection h2 with h3
      exact h3.symm
    subst this
    rw [show muLen ([] : List String) = 0 from rfl]
    omega
  · have hlt := firstRedirIdx_lt h
    have htake : toks.take i ≠ [] := by
      have hl : (toks.take i).length = i := by
        rw [List.length_take]
        omega
      intro he
      rw [he] at hl
      simp at hl
      omega
    have hB := splitInput_muLen hs
    have hJ := pyJoin_length (toks.take i) htake
    omega

/-- Fuel adequacy of the resolver: any two fuels at least the token
measure give the same command, so the fuel floor in `resolveTokensF` is
never reached from `resolveTokens` or `getCommand`. -/
theorem resolveTokensF_fuel_stable :
    ∀ (fuel₁ fuel₂ : Nat) (w : SysWorld) (toks : List String),
    muLen toks ≤ fuel₁ + 1 → muLen toks ≤ fuel₂ + 1 →
    resolveTokensF w fuel₁ toks = resolveTokensF w fuel₂ toks := by
  intro fuel₁
  induction fuel₁ using Nat.strong_induction_on with
  | _ fuel₁ ih =>
    intro fuel₂ w toks h₁ h₂
    rcases toks with _ | ⟨t, ts⟩
    · rw [resolveTokensF_nil, resolveTokensF_nil]
    · cases hfr : firstRedirIdx (t :: ts) with
      | none =>
        rw [resolveTokensF_no_redir _ _ _ hfr,
          resolveTokensF_no_redir _ _ _ hfr]
      | some i =>
        by_cases hlast : i = (t :: ts).length - 1
        · have e : ∀ fuel : Nat, resolveTokensF w fuel (t :: ts) =
              Command.invalidCmd "No file specified for redirection" := by
            intro fuel
            rw [resolveTokensF, if_neg (by simp), hfr]
            dsimp only
            rw [if_pos hlast]
          rw [e, e]
        · obtain ⟨rt, rest, hdrop, hrt⟩ := firstRedirIdx_drop hfr
          have hμ2 : 2 ≤ muLen (t :: ts) := by
            have hsplit : muLen (t :: ts) =
                muLen ((t :: ts).take i) + muLen ((t :: ts).drop i) := by
              rw [← muLen_append, List.take_append_drop]
            have : 2 ≤ muLen ((t :: ts).drop i) := by
              rw [hdrop]
              have := isRedirTok_length hrt
              simp only [muLen, List.map_cons, List.sum_cons,
                List.length_cons]
              omega
            omega
          obtain ⟨f₁, rfl⟩ : ∃ f, fuel₁ = f + 1 := by
            cases fuel₁
            · omega
            · exact ⟨_, rfl⟩
          obtain ⟨f₂, rfl⟩ : ∃ f, fuel₂ = f + 1 := by
            cases fuel₂
            · omega
            · exact ⟨_, rfl⟩
          have e : ∀ f : Nat, resolveTokensF w (f + 1) (t :: ts) =
              Command.redirect
                (match splitInput (pyJoin " " ((t :: ts).take i)) with
                 | .error msg => Command.invalidCmd msg
                 | .ok innerToks => resolveTokensF w f innerToks)
                ((t :: ts).getD (i + 1) "") := by
            intro f
            rw [resolveTokensF, if_neg (by simp), hfr]
            dsimp only
            rw [if_neg hlast]
          rw [e f₁, e f₂]
          cases hs : splitInput (pyJoin " " ((t :: ts).take i)) with
          | error msg => rfl
          | ok toks' =>
            dsimp only
            have hb := inner_muLen_bound hfr hs
            congr 1
            exact ih f₁ (by omega) f₂ w toks' (by omega) (by omega)

/-- Faithfulness of `getCommand`: resolving a raw line is exactly
tokenization followed by the token-level resolver (the input-length
fuel used by `getCommand` and the measure-based fuel used by
`resolveTokens` agree). -/
theorem getCommand_eq_resolveTokens :
    ∀ (w : SysWorld) (s : String),
    getCommand w s =
      (match splitInput s with
       | .error e => Command.invalidCmd e
       | .ok toks => resolveTokens w toks) := by
  intro w s
  rw [getCommand]
  cases hs : splitInput s with
  | error e => rfl
  | ok toks =>
    dsimp only
    rw [resolveTokens]
    have hB := splitInput_muLen hs
    exact resolveTokensF_fuel_stable s.length (tokensFuel toks) w toks
      (by omega) (by simp only [tokensFuel]; omega)

end Shell
